import Mathlib

/-!
Verification of the tlsguard packet-forwarding engine against its
natural-language specification.

The Go sources are shallowly embedded: bytes are natural numbers below 256,
byte buffers are lists of naturals, streams are the list of bytes the peer
will deliver before closing, and each goroutine loop body becomes a pure
step function whose external inputs (read results, write errors, random
indices, the running flag) are explicit parameters.
-/

namespace TlsGuard

/-- Big-endian encoding of a 16-bit value into two bytes, following
binary.BigEndian.PutUint16 in handleDevicePacket (server.go, client). -/
def putUint16BE (n : Nat) : List Nat :=
  [(n / 256) % 256, n % 256]

/-- Big-endian decoding of two bytes into a 16-bit value, following
binary.BigEndian.Uint16 in handleConn (server.go) and handleRemotePacket. -/
def uint16BE (b0 b1 : Nat) : Nat :=
  b0 * 256 + b1

/-- Frame construction performed by the TUN reader handleDevicePacket:
the Go code writes uint16(size) big-endian at data[0:2] with the datagram
already at data[2:2+size] and publishes data[:2+size]; the uint16 cast
truncates modulo 2^16. -/
def encodeFrame (p : List Nat) : List Nat :=
  putUint16BE (p.length % 65536) ++ p

/-- Outcome of one frame-decoding step of a carrier read loop
(the loop body of Server.handleConn and of Client.handleRemotePacket). -/
inductive DecodeResult where
  | payload (p : List Nat) (rest : List Nat)
  | endOfStream
  | errShort
  deriving DecidableEq, Repr

/-- One frame-decode from a stream, following the read-loop body of
Server.handleConn (server.go lines 151-173) and Client.handleRemotePacket:
io.ReadFull(conn, data[:2]) fails unless two header bytes arrive; a zero
size breaks the loop; io.ReadFull(conn, data[:size]) fails unless all size
body bytes arrive (a partial read yields ErrUnexpectedEOF, never a short
success). The stream argument is the byte sequence the peer delivers
before closing. -/
def decodeFrame (s : List Nat) : DecodeResult :=
  match s with
  | b0 :: b1 :: rest =>
    let size := uint16BE b0 b1
    if size = 0 then .endOfStream
    else if size ≤ rest.length then .payload (rest.take size) (rest.drop size)
    else .errShort
  | _ => .errShort

theorem uint16BE_putUint16BE (n : Nat) (h : n < 65536) :
    uint16BE ((n / 256) % 256) (n % 256) = n := by
  have h1 : n / 256 < 256 := Nat.div_lt_of_lt_mul (by omega)
  rw [uint16BE, Nat.mod_eq_of_lt h1]
  omega

/-- C1: for every payload p of length n with 1 ≤ n ≤ 65535, encoding p as
the 2-byte big-endian length n followed by p and then decoding that frame
from a stream (read 2 bytes as L, then read exactly L bytes) yields exactly
the bytes of p, leaving the remainder of the stream untouched. -/
theorem encode_decode_roundtrip (p rest : List Nat)
    (h1 : 1 ≤ p.length) (h2 : p.length ≤ 65535) :
    decodeFrame (encodeFrame p ++ rest) = .payload p rest := by
  have hm : p.length % 65536 = p.length := Nat.mod_eq_of_lt (by omega)
  have hlt : p.length < 65536 := by omega
  rcases p with _ | ⟨a, q⟩
  · simp at h1
  · simp only [encodeFrame, putUint16BE, hm, List.cons_append, List.nil_append, decodeFrame]
    rw [uint16BE_putUint16BE _ hlt]
    have hne : ¬ ((a :: q).length = 0) := by simp
    have hle : (a :: q).length ≤ ((a :: q) ++ rest).length := by
      simp [List.length_append]
    simp only [hne, if_false, List.append_assoc]
    rw [if_pos (by simp), ← List.cons_append]
    rw [List.take_left, List.drop_left]

/-- Witness for C1 at a concrete payload of length 3. -/
theorem encode_decode_roundtrip_witness :
    decodeFrame (encodeFrame [7, 8, 9] ++ [1, 2]) = .payload [7, 8, 9] [1, 2] :=
  encode_decode_roundtrip [7, 8, 9] [1, 2] (by decide) (by decide)

/-- Action a carrier read loop takes after one frame-decode attempt: the
loop bodies of Server.handleConn and Client.handleRemotePacket publish the
payload and iterate again on a successful decode, and break out of the
loop (after which the deferred RemoveAndClose evicts the carrier) on a
zero length header or on any io.ReadFull error. -/
inductive ReadLoopAct where
  | publishAndContinue (p : List Nat) (rest : List Nat)
  | exitEndOfStream
  | exitStreamError
  deriving DecidableEq, Repr

/-- One iteration of the carrier read loop, dispatching on decodeFrame
exactly as the loop body of Server.handleConn (server.go lines 151-173)
and Client.handleRemotePacket does on its two io.ReadFull calls and the
size check. -/
def readLoopStep (s : List Nat) : ReadLoopAct :=
  match decodeFrame s with
  | .payload p rest => .publishAndContinue p rest
  | .endOfStream => .exitEndOfStream
  | .errShort => .exitStreamError

/-- C3: the carrier read loop reads exactly 2 header bytes (a stream that
closes with fewer is an error exiting the loop); a decoded length of 0
signals end-of-stream and exits the loop; otherwise exactly L payload
bytes are read (a stream that closes with fewer is an error exiting the
loop, never a successful short read), and on success the published payload
has exactly L bytes. -/
theorem read_loop_exact_frames (s : List Nat) :
    (s.length < 2 → readLoopStep s = .exitStreamError) ∧
    (∀ b0 b1 rest, s = b0 :: b1 :: rest → uint16BE b0 b1 = 0 →
      readLoopStep s = .exitEndOfStream) ∧
    (∀ b0 b1 rest, s = b0 :: b1 :: rest → 0 < uint16BE b0 b1 →
      rest.length < uint16BE b0 b1 → readLoopStep s = .exitStreamError) ∧
    (∀ b0 b1 rest, s = b0 :: b1 :: rest → 0 < uint16BE b0 b1 →
      uint16BE b0 b1 ≤ rest.length →
      readLoopStep s = .publishAndContinue (rest.take (uint16BE b0 b1))
        (rest.drop (uint16BE b0 b1)) ∧
      (rest.take (uint16BE b0 b1)).length = uint16BE b0 b1) := by
  refine ⟨?_, ?_, ?_, ?_⟩
  · intro hlen
    match s, hlen with
    | [], _ => rfl
    | [b], _ => rfl
    | b0 :: b1 :: rest, hlen => simp only [List.length_cons] at hlen; omega
  · rintro b0 b1 rest rfl hz
    simp [readLoopStep, decodeFrame, hz]
  · rintro b0 b1 rest rfl hpos hshort
    simp only [readLoopStep, decodeFrame]
    rw [if_neg (by omega), if_neg (by omega)]
  · rintro b0 b1 rest rfl hpos hle
    constructor
    · simp only [readLoopStep, decodeFrame]
      rw [if_neg (by omega), if_pos hle]
    · exact List.length_take_of_le hle

/-- Witness for C3: the four branches evaluated on concrete streams — a
one-byte stream (partial header), a zero length header, a body shorter
than the announced length 3, and a complete frame of length 2. -/
theorem read_loop_exact_frames_witness :
    readLoopStep [5] = .exitStreamError ∧
    readLoopStep [0, 0, 9] = .exitEndOfStream ∧
    readLoopStep [0, 3, 1, 2] = .exitStreamError ∧
    readLoopStep [0, 2, 8, 9, 4] = .publishAndContinue [8, 9] [4] :=
  ⟨(read_loop_exact_frames [5]).1 (by decide),
   (read_loop_exact_frames [0, 0, 9]).2.1 0 0 [9] rfl (by decide),
   (read_loop_exact_frames [0, 3, 1, 2]).2.2.1 0 3 [1, 2] rfl (by decide) (by decide),
   ((read_loop_exact_frames [0, 2, 8, 9, 4]).2.2.2 0 2 [8, 9, 4] rfl
     (by decide) (by decide)).1⟩

/-- Buffer size allocated per iteration by the TUN readers
Server.handleDevicePacket and Client.handleDevicePacket, and by the
carrier read loops: the Go code runs make([]byte, 0xFFFF). -/
def devBufSize : Nat := 0xFFFF

/-- Bounded FIFO modelling a buffered Go channel of byte buffers:
deviceToRemoteChannel and remoteToDeviceChannel, whose capacity comes from
the configuration. -/
structure BoundedQueue where
  cap : Nat
  items : List (List Nat)
  deriving DecidableEq, Repr

/-- Non-blocking offer modelling the select with a default branch used by
every producer: the send succeeds exactly when the channel has free
capacity, otherwise the default branch drops the buffer. -/
def BoundedQueue.offer (q : BoundedQueue) (x : List Nat) : BoundedQueue × Bool :=
  if q.items.length < q.cap then ({ q with items := q.items ++ [x] }, true)
  else (q, false)

/-- Action one TUN reader iteration takes, following the loop body of
Server.handleDevicePacket (server.go lines 176-199) and the identical
Client.handleDevicePacket: a read error breaks the loop, a size at most 0
skips to the next iteration, and otherwise the frame data[:2+size] is
offered to the outbound queue. -/
inductive DevReaderAct where
  | exitLoop
  | skipEmptyRead
  | offerFrame (frame : List Nat)
  deriving DecidableEq, Repr

/-- One iteration of the TUN reader with the device.Read outcome made
explicit: readErr and size are the two results of c.device.Read(data[2:]),
and buf is the contents of data[2:] after the read. The frame offered is
data[:2+size], namely the big-endian uint16(size) written at data[:2]
followed by the first size bytes of buf; the uint16 cast truncates modulo
2^16 and size is the Go int returned by Read. -/
def handleDevicePacketStep (readErr : Bool) (size : Int) (buf : List Nat) :
    DevReaderAct :=
  if readErr then .exitLoop
  else if size ≤ 0 then .skipEmptyRead
  else .offerFrame (putUint16BE (size.toNat % 65536) ++ buf.take size.toNat)

/-- Effect of one TUN reader iteration on the outbound queue: only an
offered frame touches the queue, through the non-blocking offer. -/
def handleDevicePacketIter (q : BoundedQueue) (readErr : Bool) (size : Int)
    (buf : List Nat) : BoundedQueue :=
  match handleDevicePacketStep readErr size buf with
  | .offerFrame f => (q.offer f).1
  | _ => q

/-- C2 counterexample: the per-iteration buffer of the TUN reader is
0xFFFF = 65535 bytes, not 2 + 65535 = 65537 bytes as the claim states. -/
theorem device_reader_bufsize_cex : devBufSize ≠ 2 + 65535 := by decide

/-- C2 amended: each TUN reader iteration allocates a 65535-byte buffer
(so the datagram, read into offset 2, is at most 65533 bytes), writes the
length as big-endian uint16 at offset 0, and offers the slice of 2 + n
bytes to the outbound queue without blocking: with free capacity the frame
is appended, and on a full queue the queue is unchanged and the datagram
dropped. -/
theorem device_reader_frames (q : BoundedQueue) (size : Int) (buf : List Nat)
    (h1 : 1 ≤ size) (h2 : size ≤ (devBufSize : Int) - 2) :
    devBufSize = 65535 ∧
    handleDevicePacketStep false size buf =
      .offerFrame (putUint16BE size.toNat ++ buf.take size.toNat) ∧
    ((devBufSize : Int) - 2 ≤ buf.length →
      (putUint16BE size.toNat ++ buf.take size.toNat).length = 2 + size.toNat) ∧
    (q.items.length < q.cap →
      handleDevicePacketIter q false size buf =
        { q with items := q.items ++ [putUint16BE size.toNat ++ buf.take size.toNat] }) ∧
    (q.cap ≤ q.items.length → handleDevicePacketIter q false size buf = q) := by
  have hpos : ¬ size ≤ 0 := by omega
  have hmod : size.toNat % 65536 = size.toNat := by
    apply Nat.mod_eq_of_lt
    simp only [devBufSize] at h2
    omega
  refine ⟨rfl, ?_, ?_, ?_, ?_⟩
  · simp [handleDevicePacketStep, hpos, hmod]
  · intro hbuf
    have hsz : size.toNat ≤ buf.length := by
      simp only [devBufSize] at h2 hbuf
      omega
    simp [putUint16BE, List.length_take, Nat.min_eq_left hsz]
    omega
  · intro hroom
    simp [handleDevicePacketIter, handleDevicePacketStep, hpos, hmod,
      BoundedQueue.offer, hroom]
  · intro hfull
    have : ¬ q.items.length < q.cap := by omega
    simp [handleDevicePacketIter, handleDevicePacketStep, hpos, hmod,
      BoundedQueue.offer, this]

/-- Witness for C2 at a 3-byte datagram offered to an empty one-slot queue
and to a full queue. -/
theorem device_reader_frames_witness :
    handleDevicePacketIter ⟨1, []⟩ false 3 [10, 20, 30] =
      ⟨1, [[0, 3, 10, 20, 30]]⟩ ∧
    handleDevicePacketIter ⟨1, [[9]]⟩ false 3 [10, 20, 30] = ⟨1, [[9]]⟩ := by
  have h1 := device_reader_frames ⟨1, []⟩ 3 [10, 20, 30] (by decide) (by decide)
  have h2 := device_reader_frames ⟨1, [[9]]⟩ 3 [10, 20, 30] (by decide) (by decide)
  exact ⟨by rw [h1.2.2.2.1 (by decide)]; rfl, h2.2.2.2.2 (by decide)⟩

/-- C9: a successful device read whose returned length is 0 or negative
publishes nothing to the outbound queue and continues the loop, and no
frame with a zero length header is ever offered: every offered frame
carries the nonzero read size in its first two bytes. -/
theorem device_reader_zero_read (q : BoundedQueue) (size : Int) (buf : List Nat)
    (h : size ≤ 0) :
    handleDevicePacketStep false size buf = .skipEmptyRead ∧
    handleDevicePacketIter q false size buf = q ∧
    (∀ (size2 : Int) (buf2 f : List Nat), size2 ≤ (devBufSize : Int) - 2 →
      handleDevicePacketStep false size2 buf2 = .offerFrame f →
      ∃ b0 b1 t, f = b0 :: b1 :: t ∧ uint16BE b0 b1 = size2.toNat ∧
        uint16BE b0 b1 ≠ 0) := by
  refine ⟨by simp [handleDevicePacketStep, h], by simp [handleDevicePacketIter, handleDevicePacketStep, h], ?_⟩
  intro size2 buf2 f hb hstep
  by_cases hpos : size2 ≤ 0
  · simp [handleDevicePacketStep, hpos] at hstep
  · have hmod : size2.toNat % 65536 = size2.toNat := by
      apply Nat.mod_eq_of_lt
      simp only [devBufSize] at hb
      omega
    simp [handleDevicePacketStep, hpos, hmod] at hstep
    subst hstep
    refine ⟨(size2.toNat / 256) % 256, size2.toNat % 256, buf2.take size2.toNat, ?_, ?_, ?_⟩
    · simp [putUint16BE]
    · exact uint16BE_putUint16BE size2.toNat (by simp only [devBufSize] at hb; omega)
    · rw [uint16BE_putUint16BE size2.toNat (by simp only [devBufSize] at hb; omega)]
      omega

/-- Witness for C9 at a zero-length read against a nonempty queue. -/
theorem device_reader_zero_read_witness :
    handleDevicePacketStep false 0 [4, 5] = .skipEmptyRead ∧
    handleDevicePacketIter ⟨2, [[1]]⟩ false 0 [4, 5] = ⟨2, [[1]]⟩ :=
  ⟨(device_reader_zero_read ⟨2, [[1]]⟩ 0 [4, 5] (by decide)).1,
   (device_reader_zero_read ⟨2, [[1]]⟩ 0 [4, 5] (by decide)).2.1⟩

/-- Carrier connection as kept by the pool (connection_pool.go): the net
stream plus a locally unique 128-bit handle; only the handle matters for
the pool bookkeeping modelled here. -/
structure Connection where
  id : Nat
  deriving DecidableEq, Repr

/-- Pool of live carriers (connection_pool.go): a flat list guarded by a
RW lock; the lock itself is not modelled, each operation acts on the whole
state. -/
structure ConnectionPool where
  list : List Connection
  deriving DecidableEq, Repr

/-- ConnectionPool.Add: appends a new connection whose handle is a fresh
random UUID; the randomness is made explicit through the newId argument. -/
def ConnectionPool.Add (c : ConnectionPool) (newId : Nat) :
    ConnectionPool × Nat :=
  ({ list := c.list ++ [⟨newId⟩] }, newId)

/-- ConnectionPool.Rand: nil on an empty list, otherwise the element at
rand.IntN(len); the random draw is the explicit argument k, reduced into
range exactly as IntN bounds it. -/
def ConnectionPool.Rand (c : ConnectionPool) (k : Nat) : Option Connection :=
  if c.list.length ≤ 0 then none
  else c.list.get? (k % c.list.length)

/-- ConnectionPool.Count: the current membership size. -/
def ConnectionPool.Count (c : ConnectionPool) : Nat :=
  c.list.length

/-- ConnectionPool.Remove: rebuilds the list keeping every connection
whose ID differs, remembering the matching one, exactly as the Go range
loop with its two accumulators does. -/
def ConnectionPool.Remove (c : ConnectionPool) (u : Nat) :
    ConnectionPool × Option Connection :=
  let r := c.list.foldl
    (fun (acc : List Connection × Option Connection) conn =>
      if conn.id = u then (acc.1, some conn) else (acc.1 ++ [conn], acc.2))
    ([], none)
  (⟨r.1⟩, r.2)

/-- ConnectionPool.RemoveAndClose: Remove followed by closing the removed
connection when one was found; the returned list records which
connections were closed. -/
def ConnectionPool.RemoveAndClose (c : ConnectionPool) (u : Nat) :
    ConnectionPool × List Connection :=
  match c.Remove u with
  | (c2, some conn) => (c2, [conn])
  | (c2, none) => (c2, [])

/-- ConnectionPool.RemoveAndCloseAll: closes every member and resets the
list to empty. -/
def ConnectionPool.RemoveAndCloseAll (c : ConnectionPool) :
    ConnectionPool × List Connection :=
  (⟨[]⟩, c.list)

theorem removeFold_fst (u : Nat) :
    ∀ (l acc : List Connection) (f : Option Connection),
      (List.foldl
        (fun (acc2 : List Connection × Option Connection) conn =>
          if conn.id = u then (acc2.1, some conn) else (acc2.1 ++ [conn], acc2.2))
        (acc, f) l).1 = acc ++ l.filter (fun conn => conn.id ≠ u)
  | [], acc, f => by simp
  | conn :: rest, acc, f => by
    by_cases h : conn.id = u
    · simp only [List.foldl_cons, if_pos h]
      rw [removeFold_fst u rest acc (some conn)]
      simp [List.filter, h]
    · simp only [List.foldl_cons, if_neg h]
      rw [removeFold_fst u rest (acc ++ [conn]) f]
      simp [List.filter, h]

theorem remove_fst_eq_filter (c : ConnectionPool) (u : Nat) :
    (c.Remove u).1.list = c.list.filter (fun conn => conn.id ≠ u) := by
  show (List.foldl _ ([], none) c.list).1 = _
  rw [removeFold_fst u c.list [] none]
  simp

theorem rand_mem (c : ConnectionPool) (k : Nat) (conn : Connection)
    (h : c.Rand k = some conn) : conn ∈ c.list := by
  by_cases he : c.list.length ≤ 0
  · simp [ConnectionPool.Rand, he] at h
  · simp only [ConnectionPool.Rand, if_neg he] at h
    exact List.get?_mem h

/-- Go bytes.Equal as implemented by the runtime memequal: unequal
lengths answer false with no byte inspected, equal lengths are compared
byte by byte stopping at the first mismatch. The second component counts
the byte comparisons performed, the running-time measure of the check. -/
def bytesEqualSteps : List Nat → List Nat → Bool × Nat
  | [], [] => (true, 0)
  | [], _ :: _ => (false, 0)
  | _ :: _, [] => (false, 0)
  | a :: as, b :: bs =>
    if a = b then
      let r := bytesEqualSteps as bs
      (r.1, r.2 + 1)
    else (false, 1)

/-- Boolean result of bytes.Equal, the comparison Server.handleConn runs
on the received 16 id bytes. -/
def bytesEqualGo (a b : List Nat) : Bool :=
  (bytesEqualSteps a b).1

/-- Auth phase of Server.handleConn (server.go lines 131-149): none for a
failed or timed-out io.ReadFull of the 16 id bytes, otherwise the bytes
read; on read failure or on a bytes.Equal mismatch the connection is
closed and the handler returns with the pool untouched, otherwise the
connection is added to the pool. The Bool records whether the carrier was
inserted. -/
def handleConnAuth (pool : ConnectionPool) (serverId : List Nat)
    (readResult : Option (List Nat)) (newId : Nat) : ConnectionPool × Bool :=
  match readResult with
  | none => (pool, false)
  | some idBytes =>
    if bytesEqualGo idBytes serverId then ((pool.Add newId).1, true)
    else (pool, false)

theorem bytesEqualSteps_correct :
    ∀ a b : List Nat, (bytesEqualSteps a b).1 = true ↔ a = b
  | [], [] => by simp [bytesEqualSteps]
  | [], _ :: _ => by simp [bytesEqualSteps]
  | _ :: _, [] => by simp [bytesEqualSteps]
  | a :: as, b :: bs => by
    by_cases h : a = b
    · simp [bytesEqualSteps, h, bytesEqualSteps_correct as bs]
    · simp [bytesEqualSteps, h]

/-- C4: a responder connection whose 16-byte id read fails or times out,
or whose received bytes differ from the configured endpoint id, is never
inserted into the pool: the handler closes it and returns, and the pool
and its count are unchanged. -/
theorem responder_auth_rejects (pool : ConnectionPool) (serverId : List Nat)
    (r : Option (List Nat)) (nid : Nat)
    (h : r = none ∨ ∃ b, r = some b ∧ b ≠ serverId) :
    handleConnAuth pool serverId r nid = (pool, false) ∧
    (handleConnAuth pool serverId r nid).1.Count = pool.Count := by
  have hmain : handleConnAuth pool serverId r nid = (pool, false) := by
    rcases h with rfl | ⟨b, rfl, hne⟩
    · rfl
    · have : bytesEqualGo b serverId = false := by
        rcases hb : (bytesEqualSteps b serverId).1 with _ | _
        · simp [bytesEqualGo, hb]
        · exact absurd ((bytesEqualSteps_correct b serverId).1 hb) hne
      simp [handleConnAuth, this]
  exact ⟨hmain, by rw [hmain]⟩

/-- Witness for C4: a failed read and a wrong id against a one-carrier
pool both leave the pool untouched. -/
theorem responder_auth_rejects_witness :
    handleConnAuth ⟨[⟨3⟩]⟩ [1, 2] none 9 = (⟨[⟨3⟩]⟩, false) ∧
    handleConnAuth ⟨[⟨3⟩]⟩ [1, 2] (some [1, 5]) 9 = (⟨[⟨3⟩]⟩, false) :=
  ⟨(responder_auth_rejects ⟨[⟨3⟩]⟩ [1, 2] none 9 (Or.inl rfl)).1,
   (responder_auth_rejects ⟨[⟨3⟩]⟩ [1, 2] (some [1, 5]) 9
     (Or.inr ⟨[1, 5], rfl, by decide⟩)).1⟩

/-- C5 counterexample: the number of byte comparisons bytes.Equal performs
on 16-byte inputs depends on the compared values, so the responder id
check is not constant-time: a first-byte mismatch against the all-zero id
costs a different number of comparisons than a last-byte mismatch. -/
theorem bytes_equal_not_constant_time_cex :
    ¬ (∀ a b c d : List Nat, a.length = 16 → b.length = 16 →
        c.length = 16 → d.length = 16 →
        (bytesEqualSteps a b).2 = (bytesEqualSteps c d).2) := by
  intro h
  have := h (1 :: List.replicate 15 0) (List.replicate 16 0)
    (List.replicate 15 0 ++ [1]) (List.replicate 16 0)
    (by decide) (by decide) (by decide) (by decide)
  revert this
  decide

/-- C5 amended: the responder id check is bytes.Equal, a short-circuiting
byte-wise equality: it answers true exactly on equal byte strings, but its
comparison count varies with the data — a mismatch in the first byte costs
one comparison while equal strings cost one comparison per byte — so the
check is not constant-time. -/
theorem bytes_equal_shortcircuit :
    (∀ a b : List Nat, (bytesEqualGo a b = true) ↔ a = b) ∧
    (∀ (x y : Nat) (as bs : List Nat), x ≠ y →
      (bytesEqualSteps (x :: as) (y :: bs)).2 = 1) ∧
    (∀ l : List Nat, (bytesEqualSteps l l).2 = l.length) := by
  refine ⟨bytesEqualSteps_correct, ?_, ?_⟩
  · intro x y as bs hne
    simp [bytesEqualSteps, hne]
  · intro l
    induction l with
    | nil => rfl
    | cons a as ih => simp [bytesEqualSteps, ih]

/-- Action one worker iteration takes, following the loop body of
Server.handleDeviceToRemoteChannel (server.go lines 201-220) and the
identical Client.handleDeviceToRemoteChannel. -/
inductive WorkerAct where
  | exitLoop
  | continueNilData
  | continueEmptyPool
  | continueWrote (connId : Nat)
  | continueEvicted (connId : Nat)
  deriving DecidableEq, Repr

/-- Result of one worker iteration: the pool afterwards, the frames the
worker put back on the outbound queue (the loop body never requeues, so
this list is always empty), and the control-flow action taken. -/
structure WorkerOutcome where
  pool : ConnectionPool
  requeued : List (List Nat)
  act : WorkerAct
  deriving DecidableEq, Repr

/-- One worker iteration with its external inputs explicit: the running
flag read at the top of the loop, the value received from the outbound
channel (none models the nil sentinel), the random draw for Rand, and
whether conn.Write failed. On a write error the worker calls
RemoveAndClose with the picked carrier handle and drops the datagram. -/
def workerIter (status : Bool) (pool : ConnectionPool)
    (data : Option (List Nat)) (pick : Nat) (writeErr : Bool) :
    WorkerOutcome :=
  if status then
    match data with
    | none => ⟨pool, [], .continueNilData⟩
    | some _ =>
      match pool.Rand pick with
      | none => ⟨pool, [], .continueEmptyPool⟩
      | some conn =>
        if writeErr then
          ⟨(pool.RemoveAndClose conn.id).1, [], .continueEvicted conn.id⟩
        else ⟨pool, [], .continueWrote conn.id⟩
  else ⟨pool, [], .exitLoop⟩

/-- C6: a worker whose single full write fails removes-and-closes exactly
the picked carrier — the pool afterwards is the old pool with the entries
bearing that handle filtered out — and requeues nothing; a worker that
picks from an empty pool drops the datagram, leaves the pool alone and
keeps looping; and no iteration ever requeues a datagram. -/
theorem worker_drop_semantics (pool : ConnectionPool) (d : List Nat)
    (pick : Nat) (we : Bool) (conn : Connection) :
    (pool.list = [] →
      workerIter true pool (some d) pick we = ⟨pool, [], .continueEmptyPool⟩) ∧
    (pool.Rand pick = some conn →
      workerIter true pool (some d) pick true =
        ⟨⟨pool.list.filter (fun c2 => c2.id ≠ conn.id)⟩, [], .continueEvicted conn.id⟩ ∧
      conn ∈ pool.list) ∧
    (∀ (st : Bool) (dat : Option (List Nat)),
      (workerIter st pool dat pick we).requeued = []) := by
  refine ⟨?_, ?_, ?_⟩
  · intro hempty
    have : pool.Rand pick = none := by
      simp [ConnectionPool.Rand, hempty]
    simp [workerIter, this]
  · intro hrand
    constructor
    · have hrc : (pool.RemoveAndClose conn.id).1.list =
          pool.list.filter (fun c2 => c2.id ≠ conn.id) := by
        unfold ConnectionPool.RemoveAndClose
        rcases h2 : pool.Remove conn.id with ⟨c2, f⟩
        have := remove_fst_eq_filter pool conn.id
        rw [h2] at this
        cases f <;> simpa using this
      have hrc3 : (pool.RemoveAndClose conn.id).1 =
          (⟨pool.list.filter (fun c2 => c2.id ≠ conn.id)⟩ : ConnectionPool) := by
        rcases hp : (pool.RemoveAndClose conn.id).1 with ⟨l⟩
        rw [hp] at hrc
        simp only at hrc
        rw [hrc]
      simp [workerIter, hrand, hrc3]
    · exact rand_mem pool pick conn hrand
  · intro st dat
    rcases st
    · rfl
    · rcases dat with _ | d2
      · rfl
      · simp only [workerIter]
        rcases hr : pool.Rand pick with _ | c3
        · simp [hr]
        · rcases we <;> simp [hr]

/-- Witness for C6: an empty pool drops the datagram and continues; a
failed write on a two-carrier pool evicts exactly the picked carrier. -/
theorem worker_drop_semantics_witness :
    workerIter true ⟨[]⟩ (some [1]) 0 false = ⟨⟨[]⟩, [], .continueEmptyPool⟩ ∧
    workerIter true ⟨[⟨5⟩, ⟨7⟩]⟩ (some [1]) 0 true =
      ⟨⟨[⟨7⟩]⟩, [], .continueEvicted 5⟩ := by
  have h1 := (worker_drop_semantics ⟨[]⟩ [1] 0 false ⟨0⟩).1 rfl
  have h2 := ((worker_drop_semantics ⟨[⟨5⟩, ⟨7⟩]⟩ [1] 0 true ⟨5⟩).2.1 (by decide)).1
  exact ⟨h1, by rw [h2]; rfl⟩

/-- Observable actions of the Close methods, one per statement of
Server.Close (server.go lines 93-115) and Client.Close. -/
inductive CloseAct where
  | setRunningFalse
  | closeListener
  | closeTun
  | closeQueueOutbound
  | closeQueueInbound
  | poolCloseAll
  | joinTasks
  | drainQueueOutbound
  | drainQueueInbound
  deriving DecidableEq, Repr

/-- Statement-by-statement action sequence of Server.Close: status =
false; ln.Close(); device.Close(); close(deviceToRemoteChannel);
close(remoteToDeviceChannel); connections.RemoveAndCloseAll(); Wait();
connections.RemoveAndCloseAll(); then the two drain loops. -/
def serverCloseTrace : List CloseAct :=
  [.setRunningFalse, .closeListener, .closeTun,
   .closeQueueOutbound, .closeQueueInbound,
   .poolCloseAll, .joinTasks, .poolCloseAll,
   .drainQueueOutbound, .drainQueueInbound]

/-- Statement-by-statement action sequence of Client.Close: identical to
the responder but with no listener; the dial maintainer has no dedicated
stop action — its loop merely observes the running flag going false. -/
def clientCloseTrace : List CloseAct :=
  [.setRunningFalse, .closeTun,
   .closeQueueOutbound, .closeQueueInbound,
   .poolCloseAll, .joinTasks, .poolCloseAll,
   .drainQueueOutbound, .drainQueueInbound]

/-- Strict precedence of the first occurrences of two actions in a close
trace, both present. -/
def precedes (t : List CloseAct) (a b : CloseAct) : Prop :=
  a ∈ t ∧ b ∈ t ∧ t.indexOf a < t.indexOf b

instance (t : List CloseAct) (a b : CloseAct) : Decidable (precedes t a b) := by
  unfold precedes; infer_instance

/-- Shutdown order exactly as the claim states it for the responder:
running flag first, then listener, then TUN, then pool.close_all, then
join, and the two queues closed (released) and drained only after the
join. -/
def claimedShutdownOrder (t : List CloseAct) : Prop :=
  precedes t .setRunningFalse .closeListener ∧
  precedes t .closeListener .closeTun ∧
  precedes t .closeTun .poolCloseAll ∧
  precedes t .poolCloseAll .joinTasks ∧
  precedes t .joinTasks .closeQueueOutbound ∧
  precedes t .joinTasks .closeQueueInbound ∧
  precedes t .joinTasks .drainQueueOutbound ∧
  precedes t .joinTasks .drainQueueInbound

/-- C7 counterexample: Server.Close closes both queues right after the
TUN handle, before pool.close_all and before joining the tasks, so the
claimed order — queues released only after the join — fails on the code;
only the drain loops run after the join. -/
theorem shutdown_order_cex : ¬ claimedShutdownOrder serverCloseTrace := by
  intro h
  exact absurd h.2.2.2.2.1 (by decide)

/-- C7 amended: shutdown sets the running flag false, closes the listener
(responder only), closes the TUN handle, then closes both queues, then
closes all carriers, then joins all tasks, and only after joining drains
the two queues (closing all carriers once more in between); the initiator
performs the same sequence with no listener, its dial maintainer stopping
through the running flag alone. -/
theorem shutdown_order_amended :
    (precedes serverCloseTrace .setRunningFalse .closeListener ∧
     precedes serverCloseTrace .closeListener .closeTun ∧
     precedes serverCloseTrace .closeTun .closeQueueOutbound ∧
     precedes serverCloseTrace .closeQueueOutbound .closeQueueInbound ∧
     precedes serverCloseTrace .closeQueueInbound .poolCloseAll ∧
     precedes serverCloseTrace .poolCloseAll .joinTasks ∧
     precedes serverCloseTrace .joinTasks .drainQueueOutbound ∧
     precedes serverCloseTrace .drainQueueOutbound .drainQueueInbound ∧
     serverCloseTrace.count .poolCloseAll = 2) ∧
    (precedes clientCloseTrace .setRunningFalse .closeTun ∧
     precedes clientCloseTrace .closeTun .closeQueueOutbound ∧
     precedes clientCloseTrace .closeQueueOutbound .closeQueueInbound ∧
     precedes clientCloseTrace .closeQueueInbound .poolCloseAll ∧
     precedes clientCloseTrace .poolCloseAll .joinTasks ∧
     precedes clientCloseTrace .joinTasks .drainQueueOutbound ∧
     precedes clientCloseTrace .drainQueueOutbound .drainQueueInbound ∧
     .closeListener ∉ clientCloseTrace) := by
  decide

/-- Engine started by main according to the mode option: NewClient is the
initiator (it dials the remote endpoint), NewServer the responder (it
listens and accepts). -/
inductive EngineKind where
  | initiatorEngine
  | responderEngine
  deriving DecidableEq, Repr

/-- Mode dispatch of main (main.go lines 50-55): the switch on the mode
field runs the client function (NewClient) on the string client and the
server function (NewServer) on the string server; any other value matches
no case and no engine is instantiated. -/
def selectMode (mode : String) : Option EngineKind :=
  if mode = "client" then some .initiatorEngine
  else if mode = "server" then some .responderEngine
  else none

/-- C8 counterexample: the strings initiator and responder named by the
claim are not recognized mode values — the switch in main matches neither
and instantiates no engine. -/
theorem mode_values_cex :
    selectMode "initiator" = none ∧ selectMode "responder" = none := by
  constructor <;> rfl

/-- C8 amended: the recognized values of the mode option are client and
server; client instantiates the initiator engine, server the responder
engine, and every other string instantiates nothing. -/
theorem mode_values_amended :
    selectMode "client" = some .initiatorEngine ∧
    selectMode "server" = some .responderEngine ∧
    ∀ m : String, m ≠ "client" → m ≠ "server" → selectMode m = none := by
  refine ⟨rfl, rfl, ?_⟩
  intro m h1 h2
  simp [selectMode, h1, h2]

/-- Witness for C8 at a concrete unrecognized mode string. -/
theorem mode_values_amended_witness : selectMode "tunnel" = none :=
  mode_values_amended.2.2 "tunnel" (by decide) (by decide)

/-- Value received from a byte-buffer channel: the nil sentinel a closed
channel yields, or a real buffer. -/
inductive RecvItem where
  | nilItem
  | msg (m : List Nat)
  deriving DecidableEq, Repr

/-- Reason a channel-draining loop ended over a finite schedule. -/
inductive LoopExit where
  | statusFalse
  | nilReceived
  | scheduleEnded
  deriving DecidableEq, Repr

/-- Control flow of a worker loop (Server.handleDeviceToRemoteChannel,
server.go lines 201-220) over a finite schedule: each entry is the running
flag read at the top of the loop and the value then received from the
outbound channel. A false flag leaves the loop, a nil receive hits the
continue branch, and a real buffer is processed (recorded in the first
component) before the next iteration. -/
def workerLoopRun : List (Bool × RecvItem) → List (List Nat) × LoopExit
  | [] => ([], .scheduleEnded)
  | (st, it) :: rest =>
    if st then
      match it with
      | .nilItem => workerLoopRun rest
      | .msg m =>
        let r := workerLoopRun rest
        (m :: r.1, r.2)
    else ([], .statusFalse)

/-- Control flow of the TUN writer loop (Server.handleRemoteToDeviceChannel,
server.go lines 222-236) over the same kind of schedule: identical except
that a nil receive hits a break and leaves the loop at once. -/
def writerLoopRun : List (Bool × RecvItem) → List (List Nat) × LoopExit
  | [] => ([], .scheduleEnded)
  | (st, it) :: rest =>
    if st then
      match it with
      | .nilItem => ([], .nilReceived)
      | .msg m =>
        let r := writerLoopRun rest
        (m :: r.1, r.2)
    else ([], .statusFalse)

/-- C10: the nil sentinel is handled asymmetrically — a worker receiving
nil from the outbound queue just continues (the iteration is a no-op) and
the worker loop can only end through a false running flag or an exhausted
schedule, never through nil; the TUN writer receiving nil from the inbound
queue exits immediately, processing nothing further. -/
theorem nil_sentinel_asymmetry :
    (∀ rest, workerLoopRun ((true, .nilItem) :: rest) = workerLoopRun rest) ∧
    (∀ sched, (workerLoopRun sched).2 ≠ .nilReceived) ∧
    (∀ it rest, workerLoopRun ((false, it) :: rest) = ([], .statusFalse)) ∧
    (∀ rest, writerLoopRun ((true, .nilItem) :: rest) = ([], .nilReceived)) := by
  refine ⟨fun rest => rfl, ?_, fun it rest => rfl, fun rest => rfl⟩
  intro sched
  induction sched with
  | nil => simp [workerLoopRun]
  | cons e rest ih =>
    rcases e with ⟨st, it⟩
    rcases st
    · simp [workerLoopRun]
    · rcases it with _ | m
      · simpa [workerLoopRun] using ih
      · simpa [workerLoopRun] using ih

/-- Witness for C10: a schedule that feeds the worker a nil and then a
message shows the worker continuing past the nil, while the writer stops
at the nil before the message. -/
theorem nil_sentinel_asymmetry_witness :
    workerLoopRun [(true, .nilItem), (true, .msg [5])] = ([[5]], .scheduleEnded) ∧
    writerLoopRun [(true, .nilItem), (true, .msg [5])] = ([], .nilReceived) := by
  constructor
  · rw [nil_sentinel_asymmetry.1 [(true, .msg [5])]]
    rfl
  · exact nil_sentinel_asymmetry.2.2.2 [(true, .msg [5])]

end TlsGuard
